import Mathlib

/-!
Verification development for the `domemilyfashion` catalog application
(`fashion/models.py`, `fashion/views.py`).

The Django model layer and the request handlers are shallowly embedded:
the product table becomes a `Store` (a list of `Product` rows plus an
auto-increment id counter and a clock for `created_at`), querysets become
list operations, and each view becomes a function from the store and the
parsed request data to the new store plus the rendered outcome.  The
external Cloudinary gateway (`upload_to_cloudinary`) is a parameter of
type `ImageFile → Option String`: `none` models both "CLOUDINARY_URL not
configured" and an upload exception.
-/

namespace Fashion

/-- A persisted `Product` row (`fashion/models.py`, class `Product`).
`price` is modelled as a rational (a Python float holding a parsed decimal
literal); `created_at` is an abstract timestamp (larger = later), assigned
from the store clock on insert (`auto_now_add=True`). -/
structure Product where
  id : Nat
  name : String
  slug : String
  category : String
  dress_type : String
  description : String
  price : Rat
  image_url : String
  is_available : Bool
  created_at : Nat
deriving DecidableEq, Repr

/-- The product table: rows, the auto-increment primary-key counter, and a
clock used for `created_at` timestamps. -/
structure Store where
  products : List Product
  nextId : Nat
  clock : Nat
deriving DecidableEq, Repr

/-! ### `django.utils.text.slugify`

`slugify(value)` (with `allow_unicode=False`) normalises to ASCII, lowercases,
removes every character that is not alphanumeric, underscore, whitespace or
hyphen, collapses runs of hyphens/whitespace to a single hyphen, and strips
leading/trailing hyphens and underscores.  The model below is faithful on
ASCII input; characters outside ASCII are dropped (the NFKD transliteration
step of Django is not modelled). -/

/-- `\w` for ASCII text: letters, digits, underscore. -/
def isWordChar (c : Char) : Bool :=
  c.isAlphanum || c == '_'

/-- `\s` for ASCII text. -/
def isSpaceChar (c : Char) : Bool :=
  c == ' ' || c == '\t' || c == '\n' || c == '\r' || c == '\x0b' || c == '\x0c'

/-- `re.sub(r"[-\s]+", "-", value)`: replace each maximal run of hyphens and
whitespace by a single hyphen.  The boolean flag records whether the previous
character belonged to such a run. -/
def collapseRuns : Bool → List Char → List Char
  | _, [] => []
  | inRun, c :: rest =>
    if isSpaceChar c || c == '-' then
      if inRun then collapseRuns true rest
      else '-' :: collapseRuns true rest
    else c :: collapseRuns false rest

/-- `.strip("-_")` on a character list. -/
def stripEnds (l : List Char) : List Char :=
  (((l.dropWhile fun c => c == '-' || c == '_').reverse.dropWhile
      fun c => c == '-' || c == '_')).reverse

/-- Model of `django.utils.text.slugify` on ASCII input. -/
def slugify (s : String) : String :=
  let ascii := s.data.filter fun c => c.toNat < 128
  let lowered := ascii.map Char.toLower
  let kept := lowered.filter fun c => isWordChar c || isSpaceChar c || c == '-'
  String.mk (stripEnds (collapseRuns false kept))

/-! ### Slug assignment (`Product.save`, `fashion/models.py` lines 51-60) -/

/-- `Product.objects.filter(slug=s).exclude(pk=pk).exists()`: some row has
slug `s` and is not the row identified by `pk` (for a new instance `pk` is
`none` and nothing is excluded). -/
def slugTaken (products : List Product) (pk : Option Nat) (s : String) : Bool :=
  products.any fun p => p.slug == s && !(pk == some p.id)

/-- The candidate slugs tried by the save loop: `base` first, then
`f"{base}-{counter}"` for `counter = 1, 2, ...`. -/
def candidate (base : String) : Nat → String
  | 0 => base
  | k + 1 => base ++ "-" ++ Nat.repr (k + 1)

/-- The `while` loop of `Product.save`, starting at candidate index `k` with
the given fuel.  With fuel `products.length + 1` the loop always finds a free
candidate before the fuel runs out (`exists_free_candidate` below), so the
fuel-exhausted branch is unreachable. -/
def chooseSlugAux (taken : String → Bool) (base : String) : Nat → Nat → String
  | k, 0 => candidate base k
  | k, fuel + 1 =>
    if taken (candidate base k) then chooseSlugAux taken base (k + 1) fuel
    else candidate base k

/-- The slug-assignment step of `Product.save`: when the instance slug is
empty, derive the base slug from the name and take the first candidate not
held by another row; otherwise keep the slug unchanged. -/
def assignSlug (products : List Product) (pk : Option Nat) (name slug : String) : String :=
  if slug == "" then
    chooseSlugAux (slugTaken products pk) (slugify name) 0 (products.length + 1)
  else slug

/-- An in-memory model instance (a `Product` object before `save`), with
`pk = none` for an unsaved instance. -/
structure ProductInstance where
  pk : Option Nat
  name : String
  slug : String
  category : String
  dress_type : String
  description : String
  price : Rat
  image_url : String
  is_available : Bool
  created_at : Nat
deriving DecidableEq, Repr

/-- The instance loaded from a row (as `get_object_or_404` returns it). -/
def instanceOfRow (p : Product) : ProductInstance :=
  { pk := some p.id, name := p.name, slug := p.slug, category := p.category,
    dress_type := p.dress_type, description := p.description, price := p.price,
    image_url := p.image_url, is_available := p.is_available, created_at := p.created_at }

/-- The row written by `save` for an instance that received primary key `i`
and creation time `t`. -/
def rowOfInstance (i t : Nat) (slug : String) (p : ProductInstance) : Product :=
  { id := i, name := p.name, slug := slug, category := p.category,
    dress_type := p.dress_type, description := p.description, price := p.price,
    image_url := p.image_url, is_available := p.is_available, created_at := t }

/-- `Product.save` (`fashion/models.py`): assign a slug when the instance
slug is empty, then INSERT (fresh `pk`, `created_at` from the clock) or
UPDATE (replace the row with the matching primary key).  Returns the new
store and the saved row. -/
def productSave (st : Store) (p : ProductInstance) : Store × Product :=
  let slug := assignSlug st.products p.pk p.name p.slug
  match p.pk with
  | none =>
    let row := rowOfInstance st.nextId st.clock slug p
    ({ products := st.products ++ [row], nextId := st.nextId + 1, clock := st.clock + 1 }, row)
  | some i =>
    let row := rowOfInstance i p.created_at slug p
    ({ st with products := st.products.map fun q => if q.id == i then row else q }, row)

/-- Python `str.strip()` on ASCII whitespace (the views strip every text
field before validating it). -/
def pyStrip (s : String) : String :=
  String.mk
    (((s.data.dropWhile Char.isWhitespace).reverse.dropWhile Char.isWhitespace).reverse)

/-! ### Price parsing

Both `upload_dress` and `edit_dress` run `float(price)` on the stripped form
value and reject negative results.  `pyFloat` models Python `float()` on
decimal numeric literals — an optional sign, digits with at most one decimal
point, at least one digit — returned exactly as a rational. -/

/-- Numeric value of a decimal digit list (most significant first). -/
def digitsVal (l : List Char) : Nat :=
  l.foldl (fun a c => a * 10 + (c.toNat - 48)) 0

/-- Model of Python `float()` on decimal literals: `none` on parse failure
(`ValueError`), `some v` on success. -/
def pyFloat (s : String) : Option Rat :=
  let cs := s.data
  let signed : Bool × List Char :=
    match cs with
    | '-' :: rest => (true, rest)
    | '+' :: rest => (false, rest)
    | _ => (false, cs)
  let body := signed.2
  match body.splitOn '.' with
  | [intp] =>
    if intp.all Char.isDigit && !intp.isEmpty then
      some ((if signed.1 then -1 else 1) * (digitsVal intp : Rat))
    else none
  | [intp, fracp] =>
    if (intp ++ fracp).all Char.isDigit && !(intp ++ fracp).isEmpty then
      some ((if signed.1 then -1 else 1) *
        ((digitsVal (intp ++ fracp) : Rat) / (10 : Rat) ^ fracp.length))
    else none
  | _ => none

/-! ### Request handlers (`fashion/views.py`) -/

/-- The bytes of an uploaded file. -/
abbrev ImageFile := List Nat

/-- The POST data reaching `upload_dress` / `edit_dress`:
`request.POST.get(field, '')` for the text fields (an absent field is the
empty string), `request.POST.get('is_available')` for the checkbox, and
`request.FILES.get('image')`. -/
structure PostRequest where
  name : String
  price : String
  description : String
  dress_type : String
  is_available : Option String
  image : Option ImageFile
deriving DecidableEq, Repr

/-- The validation block shared by `upload_dress` and `edit_dress`
(name/price/description/dress_type checks, in source order, accumulating
messages). -/
def fieldErrors (req : PostRequest) : List String :=
  (if pyStrip req.name == "" then ["Dress name is required."] else []) ++
  (if pyStrip req.price == "" then ["Price is required."]
   else
     match pyFloat (pyStrip req.price) with
     | none => ["Invalid price format."]
     | some v => if v < 0 then ["Price must be a positive number."] else []) ++
  (if pyStrip req.description == "" then ["Description is required."] else []) ++
  (if pyStrip req.dress_type == "" then ["Please select a dress type."] else [])

/-- `upload_dress` additionally requires an image file. -/
def uploadErrors (req : PostRequest) : List String :=
  fieldErrors req ++ (if req.image.isNone then ["Please upload an image."] else [])

/-- Outcome of a POST to `upload_dress`: the store after the request, the
error list rendered back (empty on success), and whether the request
redirected to `manage_dresses` (success). -/
structure UploadResult where
  store : Store
  errors : List String
  redirected : Bool
deriving DecidableEq, Repr

/-- POST branch of `upload_dress` (`fashion/views.py` lines 68-129).
`gateway` models `upload_to_cloudinary`.  When validation passed, the price
parse below cannot fail, so `getD 0` is never exercised. -/
def upload_dress (st : Store) (req : PostRequest) (gateway : ImageFile → Option String) :
    UploadResult :=
  let errors := uploadErrors req
  if errors.isEmpty then
    match req.image with
    | none => { store := st, errors := ["Please upload an image."], redirected := false }
    | some img =>
      match gateway img with
      | none =>
        { store := st, errors := errors ++ ["Failed to upload image. Please try again."],
          redirected := false }
      | some url =>
        let product : ProductInstance :=
          { pk := none, name := pyStrip req.name, slug := "", category := "dresses",
            dress_type := pyStrip req.dress_type, description := pyStrip req.description,
            price := (pyFloat (pyStrip req.price)).getD 0, image_url := url,
            is_available := req.is_available == some "on", created_at := 0 }
        { store := (productSave st product).1, errors := [], redirected := true }
  else { store := st, errors := errors, redirected := false }

/-- Outcome of a POST to `edit_dress`: `notFound` models the `Http404` of
`get_object_or_404`; otherwise the page is rendered with the error list and
the success flag. -/
inductive EditOutcome where
  | notFound
  | rendered (errors : List String) (success : Bool)
deriving DecidableEq, Repr

/-- Result of `edit_dress`: the store after the request plus the outcome. -/
structure EditResult where
  store : Store
  outcome : EditOutcome
deriving DecidableEq, Repr

/-- POST branch of `edit_dress` (`fashion/views.py` lines 165-222).
`get_object_or_404(Product, id=product_id, category='dresses')` is the first
matching row; on validation success the fetched instance's fields are
overwritten (the slug is not touched), a newly uploaded image replaces
`image_url` only when the gateway returns a URL, and the instance is saved. -/
def edit_dress (st : Store) (product_id : Nat) (req : PostRequest)
    (gateway : ImageFile → Option String) : EditResult :=
  match st.products.find? (fun p => p.id == product_id && p.category == "dresses") with
  | none => { store := st, outcome := .notFound }
  | some row =>
    let errors := fieldErrors req
    if errors.isEmpty then
      let inst0 := instanceOfRow row
      let inst1 := { inst0 with
        name := pyStrip req.name, dress_type := pyStrip req.dress_type,
        description := pyStrip req.description, price := (pyFloat (pyStrip req.price)).getD 0,
        is_available := req.is_available == some "on" }
      let inst2 :=
        match req.image with
        | none => inst1
        | some img =>
          match gateway img with
          | none => inst1
          | some url => { inst1 with image_url := url }
      { store := (productSave st inst2).1, outcome := .rendered [] true }
    else { store := st, outcome := .rendered errors false }

/-- Outcome of `toggle_dress` / `delete_dress`: `notFound` models `Http404`,
`redirect` the redirect to `manage_dresses`. -/
inductive SimpleOutcome where
  | notFound
  | redirect
deriving DecidableEq, Repr

/-- `toggle_dress` (`fashion/views.py` lines 225-235): on POST, fetch the
product or 404, flip `is_available` and save; otherwise redirect untouched. -/
def toggle_dress (st : Store) (isPost : Bool) (product_id : Nat) : Store × SimpleOutcome :=
  if isPost then
    match st.products.find? (fun p => p.id == product_id) with
    | none => (st, .notFound)
    | some row =>
      let inst := { instanceOfRow row with is_available := !row.is_available }
      ((productSave st inst).1, .redirect)
  else (st, .redirect)

/-- `delete_dress` (`fashion/views.py` lines 238-246): on POST, fetch the
product or 404 and delete its row; otherwise redirect untouched. -/
def delete_dress (st : Store) (isPost : Bool) (product_id : Nat) : Store × SimpleOutcome :=
  if isPost then
    match st.products.find? (fun p => p.id == product_id) with
    | none => (st, .notFound)
    | some _ =>
      ({ st with products := st.products.filter fun p => !(p.id == product_id) },
       .redirect)
  else (st, .redirect)

/-! ### Read-only listing views -/

/-- `order_by('-created_at')`: newer rows first. -/
def createdDesc (a b : Product) : Prop :=
  b.created_at ≤ a.created_at

instance : DecidableRel createdDesc := fun a b => Nat.decLe b.created_at a.created_at

instance : IsTotal Product createdDesc :=
  ⟨fun a b => Nat.le_total b.created_at a.created_at⟩

instance : IsTrans Product createdDesc :=
  ⟨fun _ _ _ hab hbc => Nat.le_trans hbc hab⟩

/-- Evaluation of `order_by('-created_at')` on a list of rows. -/
def orderByCreatedDesc (l : List Product) : List Product :=
  l.insertionSort createdDesc

/-- `home` (`fashion/views.py` lines 29-34): available products, newest
first, first 8. -/
def home (cat : List Product) : List Product :=
  (orderByCreatedDesc (cat.filter fun p => p.is_available)).take 8

/-- The related-products query of `product_detail` (`fashion/views.py`
lines 42-55): same category, available, excluding the product itself, newest
first, first 4. -/
def related_products (cat : List Product) (product : Product) : List Product :=
  (orderByCreatedDesc
    (((cat.filter fun p => p.category == product.category && p.is_available).filter
      fun p => !(p.id == product.id)))).take 4

/-- Whether `n` occurs at the start of the second list. -/
def beginsWith : List Char → List Char → Bool
  | [], _ => true
  | _ :: _, [] => false
  | a :: as, b :: bs => a == b && beginsWith as bs

/-- Whether `n` occurs as a contiguous sublist. -/
def hasSub (n : List Char) : List Char → Bool
  | [] => n.isEmpty
  | c :: rest => beginsWith n (c :: rest) || hasSub n rest

/-- `name__icontains=search`: case-insensitive substring match. -/
def icontains (name search : String) : Bool :=
  hasSub (search.data.map Char.toLower) (name.data.map Char.toLower)

/-- The context rendered by `manage_dresses`. -/
structure ManageContext where
  products : List Product
  current_filter : String
  search_query : String
  all_count : Nat
  available_count : Nat
  hidden_count : Nat
deriving DecidableEq, Repr

/-- `manage_dresses` (`fashion/views.py` lines 134-162): dresses newest
first, narrowed by the availability filter and the search string; the three
counts come from the full dress collection. -/
def manage_dresses (cat : List Product) (filterParam searchParam : String) : ManageContext :=
  let products0 := orderByCreatedDesc (cat.filter fun p => p.category == "dresses")
  let current_filter := filterParam
  let products1 :=
    if current_filter == "available" then products0.filter fun p => p.is_available
    else if current_filter == "hidden" then products0.filter fun p => !p.is_available
    else products0
  let search_query := pyStrip searchParam
  let products2 :=
    if search_query == "" then products1
    else products1.filter fun p => icontains p.name search_query
  let all_dresses := cat.filter fun p => p.category == "dresses"
  { products := products2, current_filter := current_filter, search_query := search_query,
    all_count := all_dresses.length,
    available_count := (all_dresses.filter fun p => p.is_available).length,
    hidden_count := (all_dresses.filter fun p => !p.is_available).length }

/-! ### Decimal rendering is injective

The save loop distinguishes the candidate slugs `base`, `base-1`, `base-2`,
... so the termination and minimality arguments need `Nat.repr` (the
rendering used by the f-string) to be injective.  Core only provides length
bounds, so the roundtrip is proved here via a digit parser. -/

/-- Structural form of `Nat.toDigits 10`: most significant digit first. -/
def natDigits (n : Nat) : List Char :=
  if n < 10 then [Nat.digitChar n]
  else natDigits (n / 10) ++ [Nat.digitChar (n % 10)]
decreasing_by exact Nat.div_lt_self (by omega) (by omega)

/-- Numeric value of a digit character. -/
def digitVal (c : Char) : Nat := c.toNat - 48

/-- Parse a digit list back to the number it renders. -/
def ofDigits (l : List Char) : Nat :=
  l.foldl (fun a c => a * 10 + digitVal c) 0

theorem digitVal_digitChar : ∀ d, d < 10 → digitVal (Nat.digitChar d) = d := by decide

theorem toDigitsCore_eq_natDigits :
    ∀ (fuel n : Nat) (ds : List Char), n < fuel →
      Nat.toDigitsCore 10 fuel n ds = natDigits n ++ ds := by
  intro fuel
  induction fuel with
  | zero => intro n ds h; omega
  | succ fuel ih =>
    intro n ds h
    simp only [Nat.toDigitsCore]
    by_cases h10 : n / 10 = 0
    · have hn : n < 10 := by omega
      rw [if_pos h10, natDigits, if_pos hn, Nat.mod_eq_of_lt hn]
      simp
    · have hge : 10 ≤ n := by
        rcases Nat.lt_or_ge n 10 with h' | h'
        · exact absurd (Nat.div_eq_of_lt h') h10
        · exact h'
      have hlt : n / 10 < fuel :=
        Nat.lt_of_lt_of_le (Nat.div_lt_self (by omega) (by omega)) (by omega)
      have hrhs : natDigits n = natDigits (n / 10) ++ [Nat.digitChar (n % 10)] := by
        rw [natDigits, if_neg (by omega)]
      rw [if_neg h10, ih (n / 10) _ hlt, hrhs]
      simp

theorem repr_eq_natDigits (n : Nat) : Nat.repr n = String.mk (natDigits n) := by
  show (Nat.toDigits 10 n).asString = String.mk (natDigits n)
  rw [Nat.toDigits, toDigitsCore_eq_natDigits (n + 1) n [] (Nat.lt_succ_self n)]
  simp [List.asString]

theorem ofDigits_natDigits : ∀ n, ofDigits (natDigits n) = n := by
  intro n
  induction n using Nat.strong_induction_on with
  | _ n ih =>
    rw [natDigits]
    by_cases h : n < 10
    · rw [if_pos h]
      simp [ofDigits, digitVal_digitChar n h]
    · rw [if_neg h]
      have hdiv : n / 10 < n := Nat.div_lt_self (by omega) (by omega)
      have : ofDigits (natDigits (n / 10) ++ [Nat.digitChar (n % 10)]) =
          ofDigits (natDigits (n / 10)) * 10 + digitVal (Nat.digitChar (n % 10)) := by
        simp [ofDigits, List.foldl_append]
      rw [this, ih (n / 10) hdiv,
        digitVal_digitChar (n % 10) (Nat.mod_lt n (by omega))]
      omega

theorem natRepr_injective : Function.Injective Nat.repr := by
  intro a b h
  rw [repr_eq_natDigits, repr_eq_natDigits] at h
  have hd : natDigits a = natDigits b := congrArg String.data h
  have := congrArg ofDigits hd
  rwa [ofDigits_natDigits, ofDigits_natDigits] at this

theorem candidate_injective (base : String) : Function.Injective (candidate base) := by
  intro i j h
  match i, j with
  | 0, 0 => rfl
  | 0, j + 1 =>
    exfalso
    have hlen := congrArg String.length h
    have h1 : ("-" : String).length = 1 := rfl
    simp only [candidate, String.length_append] at hlen
    omega
  | i + 1, 0 =>
    exfalso
    have hlen := congrArg String.length h
    have h1 : ("-" : String).length = 1 := rfl
    simp only [candidate, String.length_append] at hlen
    omega
  | i + 1, j + 1 =>
    have hd := congrArg String.data h
    simp only [candidate, String.data_append] at hd
    have hrepr : (Nat.repr (i + 1)).data = (Nat.repr (j + 1)).data :=
      List.append_cancel_left hd
    have hre : Nat.repr (i + 1) = Nat.repr (j + 1) := by
      cases hi : Nat.repr (i + 1) with
      | mk di =>
        cases hj : Nat.repr (j + 1) with
        | mk dj =>
          rw [hi, hj] at hrepr
          simp only [] at hrepr
          exact congrArg String.mk hrepr
    have := natRepr_injective hre
    omega

/-! ### The save loop always finds a free slug, and takes the least one -/

/-- Unfolded meaning of `slugTaken ... = false`: no other row holds `s`. -/
theorem slugTaken_eq_false_iff (products : List Product) (pk : Option Nat) (s : String) :
    slugTaken products pk s = false ↔
      ∀ p ∈ products, p.slug = s → pk = some p.id := by
  unfold slugTaken
  rw [List.any_eq_false]
  constructor
  · intro h p hp hs
    have h2 := h p hp
    rw [hs] at h2
    simpa using h2
  · intro h p hp
    by_cases hs : p.slug = s
    · have hpk := h p hp hs
      simp [hs, hpk]
    · simp [hs]

/-- Pigeonhole: among the first `products.length + 1` candidate slugs at
least one is not held by another row. -/
theorem exists_free_candidate (products : List Product) (pk : Option Nat) (base : String) :
    ∃ k, k ≤ products.length ∧ slugTaken products pk (candidate base k) = false := by
  by_contra hall
  push_neg at hall
  have htaken : ∀ k, k ≤ products.length → slugTaken products pk (candidate base k) = true := by
    intro k hk
    have := hall k hk
    revert this
    cases slugTaken products pk (candidate base k) <;> simp
  have hsub : (Finset.range (products.length + 1)).image (candidate base) ⊆
      (products.map Product.slug).toFinset := by
    intro s hs
    simp only [Finset.mem_image, Finset.mem_range] at hs
    obtain ⟨k, hk, rfl⟩ := hs
    have := htaken k (Nat.lt_succ_iff.mp hk)
    simp only [slugTaken, List.any_eq_true, Bool.and_eq_true, beq_iff_eq] at this
    obtain ⟨p, hp, hps, -⟩ := this
    rw [List.mem_toFinset, List.mem_map]
    exact ⟨p, hp, hps⟩
  have hcard1 : ((Finset.range (products.length + 1)).image (candidate base)).card =
      products.length + 1 := by
    rw [Finset.card_image_of_injective _ (candidate_injective base), Finset.card_range]
  have hcard2 := Finset.card_le_card hsub
  have hcard3 : (products.map Product.slug).toFinset.card ≤ products.length := by
    have := List.toFinset_card_le (products.map Product.slug)
    simpa using this
  omega

/-- Correctness of the save loop: started at candidate `k` with enough fuel
to reach a free candidate, it returns the first free candidate at or after
`k`. -/
theorem chooseSlugAux_spec (taken : String → Bool) (base : String) :
    ∀ (fuel k : Nat),
      (∃ j, k ≤ j ∧ j ≤ k + fuel ∧ taken (candidate base j) = false) →
      ∃ j, k ≤ j ∧ chooseSlugAux taken base k fuel = candidate base j ∧
        taken (candidate base j) = false ∧
        ∀ i, k ≤ i → i < j → taken (candidate base i) = true := by
  intro fuel
  induction fuel with
  | zero =>
    intro k ⟨j, hkj, hjk, hfree⟩
    have : j = k := by omega
    subst this
    exact ⟨j, Nat.le_refl j, rfl, hfree, fun i h1 h2 => absurd h1 (by omega)⟩
  | succ fuel ih =>
    intro k ⟨j, hkj, hjk, hfree⟩
    by_cases hk : taken (candidate base k) = true
    · have hjne : j ≠ k := fun h => by rw [h, hk] at hfree; cases hfree
      obtain ⟨j', hkj', hch, hfree', hmin⟩ := ih (k + 1) ⟨j, by omega, by omega, hfree⟩
      refine ⟨j', by omega, ?_, hfree', ?_⟩
      · rw [chooseSlugAux, if_pos hk]; exact hch
      · intro i h1 h2
        rcases Nat.eq_or_lt_of_le h1 with h | h
        · rwa [← h]
        · exact hmin i h h2
    · have hkf : taken (candidate base k) = false := by
        cases h : taken (candidate base k)
        · rfl
        · exact absurd h hk
      exact ⟨k, Nat.le_refl k, by rw [chooseSlugAux, if_neg hk], hkf,
        fun i h1 h2 => absurd h1 (by omega)⟩

/-- The slug assigned to an instance with an empty slug is the first free
candidate over the base slug derived from the name. -/
theorem assignSlug_empty_spec (products : List Product) (pk : Option Nat) (name : String) :
    ∃ j, assignSlug products pk name "" = candidate (slugify name) j ∧
      slugTaken products pk (candidate (slugify name) j) = false ∧
      ∀ i, i < j → slugTaken products pk (candidate (slugify name) i) = true := by
  obtain ⟨k, hk, hfree⟩ := exists_free_candidate products pk (slugify name)
  obtain ⟨j, -, hch, hfree', hmin⟩ :=
    chooseSlugAux_spec (slugTaken products pk) (slugify name) (products.length + 1) 0
      ⟨k, Nat.zero_le k, by omega, hfree⟩
  refine ⟨j, ?_, hfree', fun i h => hmin i (Nat.zero_le i) h⟩
  rw [assignSlug]
  simp only [beq_self_eq_true, if_true]
  exact hch

/-- A non-empty slug is never recomputed by `save`. -/
theorem assignSlug_nonempty (products : List Product) (pk : Option Nat)
    (name slug : String) (h : slug ≠ "") :
    assignSlug products pk name slug = slug := by
  rw [assignSlug, if_neg]
  simpa using h

/-- The slug of the row written by `save` is the one chosen by
`assignSlug`. -/
theorem productSave_snd_slug (st : Store) (p : ProductInstance) :
    (productSave st p).2.slug = assignSlug st.products p.pk p.name p.slug := by
  cases p with
  | mk pk name slug category dress_type description price image_url is_available created_at =>
    cases pk <;> rfl

/-- Rows after an INSERT (`save` on an instance with no primary key). -/
theorem productSave_products_none (st : Store) (p : ProductInstance) (hpk : p.pk = none) :
    (productSave st p).1.products =
      st.products ++
        [rowOfInstance st.nextId st.clock (assignSlug st.products none p.name p.slug) p] := by
  simp [productSave, hpk]

/-- Rows after an UPDATE (`save` on an instance with primary key `i`). -/
theorem productSave_products_some (st : Store) (p : ProductInstance) (i : Nat)
    (hpk : p.pk = some i) :
    (productSave st p).1.products =
      st.products.map fun q =>
        if q.id == i then
          rowOfInstance i p.created_at (assignSlug st.products (some i) p.name p.slug) p
        else q := by
  simp [productSave, hpk]

/-- After an UPDATE by an instance with a non-empty slug, every row carrying
the updated primary key holds that slug (in particular the slug was not
recomputed). -/
theorem productSave_update_slug (st : Store) (inst : ProductInstance) (i : Nat)
    (hpk : inst.pk = some i) (hslug : inst.slug ≠ "") :
    ∀ q ∈ (productSave st inst).1.products, q.id = i → q.slug = inst.slug := by
  rw [productSave_products_some st inst i hpk]
  intro q hq hqi
  rw [List.mem_map] at hq
  obtain ⟨x, hx, rfl⟩ := hq
  by_cases hxi : x.id = i
  · rw [if_pos (show (x.id == i) = true by simpa using hxi)]
    show assignSlug st.products (some i) inst.name inst.slug = inst.slug
    exact assignSlug_nonempty st.products (some i) inst.name inst.slug hslug
  · rw [if_neg (show ¬(x.id == i) = true by simpa using hxi)] at hqi ⊢
    exact absurd hqi hxi

/-- After an UPDATE, every row carrying the updated primary key is exactly
the row written by `save`. -/
theorem productSave_update_row (st : Store) (inst : ProductInstance) (i : Nat)
    (hpk : inst.pk = some i) :
    ∀ q ∈ (productSave st inst).1.products, q.id = i →
      q = rowOfInstance i inst.created_at
        (assignSlug st.products (some i) inst.name inst.slug) inst := by
  rw [productSave_products_some st inst i hpk]
  intro q hq hqi
  rw [List.mem_map] at hq
  obtain ⟨x, hx, rfl⟩ := hq
  by_cases hxi : x.id = i
  · rw [if_pos (show (x.id == i) = true by simpa using hxi)]
  · rw [if_neg (show ¬(x.id == i) = true by simpa using hxi)] at hqi ⊢
    exact absurd hqi hxi

/-- A list with a member is not empty. -/
theorem isEmpty_eq_false_of_mem {α} {a : α} {l : List α} (h : a ∈ l) : l.isEmpty = false := by
  cases l with
  | nil => cases h
  | cons x xs => rfl

/-- With pairwise-distinct primary keys, two rows of the table with the same
key are the same row. -/
theorem row_eq_of_id_eq {l : List Product} (h : (l.map Product.id).Nodup)
    {a b : Product} (ha : a ∈ l) (hb : b ∈ l) (hid : a.id = b.id) : a = b :=
  List.inj_on_of_nodup_map h ha hb hid

end Fashion

namespace Fashion

/-- C1: saving a product with an empty slug derives the base slug
`slugify(name)` and assigns the candidate slug with the lowest available
integer suffix among those not held by another product; assuming the
catalog came in with pairwise-distinct slugs and distinct primary keys, the
catalog after the save again has pairwise-distinct slugs. -/
theorem claim_C1_slug_assigner (st : Store) (p : ProductInstance)
    (hslug : p.slug = "")
    (hids : (st.products.map Product.id).Nodup)
    (hslugs : st.products.Pairwise fun a b => a.slug ≠ b.slug) :
    (∃ j, (productSave st p).2.slug = candidate (slugify p.name) j ∧
        slugTaken st.products p.pk (candidate (slugify p.name) j) = false ∧
        ∀ i, i < j → slugTaken st.products p.pk (candidate (slugify p.name) i) = true) ∧
    (productSave st p).1.products.Pairwise fun a b => a.slug ≠ b.slug := by
  obtain ⟨j, hassign, hfree, hmin⟩ := assignSlug_empty_spec st.products p.pk p.name
  have hsl : assignSlug st.products p.pk p.name p.slug = candidate (slugify p.name) j := by
    rw [hslug]; exact hassign
  refine ⟨⟨j, by rw [productSave_snd_slug, hsl], hfree, hmin⟩, ?_⟩
  cases hpk : p.pk with
  | none =>
    rw [hpk] at hfree
    rw [productSave_products_none st p hpk, List.pairwise_append]
    refine ⟨hslugs, List.pairwise_singleton _ _, ?_⟩
    intro a ha b hb
    rw [List.mem_singleton] at hb
    subst hb
    show a.slug ≠ _
    have : (rowOfInstance st.nextId st.clock
        (assignSlug st.products none p.name p.slug) p).slug =
        candidate (slugify p.name) j := by
      rw [← hpk] at *
      simpa [rowOfInstance] using hsl
    rw [this]
    intro heq
    have := (slugTaken_eq_false_iff st.products none _).mp hfree a ha heq
    cases this
  | some i =>
    rw [hpk] at hfree
    rw [productSave_products_some st p i hpk, List.pairwise_map]
    have hids2 : st.products.Pairwise fun a b => a.id ≠ b.id := List.pairwise_map.mp hids
    refine List.Pairwise.imp_of_mem ?_ (hslugs.and hids2)
    intro a b ha hb hab
    obtain ⟨hslab, hidab⟩ := hab
    have hrow : (rowOfInstance i p.created_at
        (assignSlug st.products (some i) p.name p.slug) p).slug =
        candidate (slugify p.name) j := by
      rw [← hpk] at *
      simpa [rowOfInstance] using hsl
    by_cases hai : a.id = i <;> by_cases hbi : b.id = i
    · exact absurd (hai.trans hbi.symm) hidab
    · rw [if_pos (show (a.id == i) = true by simpa using hai),
        if_neg (show ¬(b.id == i) = true by simpa using hbi), hrow]
      intro heq
      have := (slugTaken_eq_false_iff st.products (some i) _).mp hfree b hb heq.symm
      exact hbi (by injection this with h; exact h.symm)
    · rw [if_neg (show ¬(a.id == i) = true by simpa using hai),
        if_pos (show (b.id == i) = true by simpa using hbi), hrow]
      intro heq
      have := (slugTaken_eq_false_iff st.products (some i) _).mp hfree a ha heq
      exact hai (by injection this with h; exact h.symm)
    · rw [if_neg (show ¬(a.id == i) = true by simpa using hai),
        if_neg (show ¬(b.id == i) = true by simpa using hbi)]
      exact hslab

/-- Witness for C1 at the empty catalog and the instance
`name = "Red Gown"`, `slug = ""`. -/
theorem claim_C1_slug_assigner_witness :
    (∃ j, (productSave ⟨[], 1, 0⟩
        ⟨none, "Red Gown", "", "dresses", "", "x", 120, "", true, 0⟩).2.slug =
          candidate (slugify "Red Gown") j ∧
        slugTaken [] none (candidate (slugify "Red Gown") j) = false ∧
        ∀ i, i < j → slugTaken [] none (candidate (slugify "Red Gown") i) = true) ∧
    (productSave ⟨[], 1, 0⟩
        ⟨none, "Red Gown", "", "dresses", "", "x", 120, "", true, 0⟩).1.products.Pairwise
      fun a b => a.slug ≠ b.slug :=
  claim_C1_slug_assigner ⟨[], 1, 0⟩
    ⟨none, "Red Gown", "", "dresses", "", "x", 120, "", true, 0⟩
    rfl List.Pairwise.nil List.Pairwise.nil

/-- C2: a product that already holds a non-empty slug keeps it across every
save: slug assignment runs only on an empty slug, and an `edit_dress`
submission (whatever fields it changes, the name included) leaves the slug
of the edited product unchanged. -/
theorem claim_C2_slug_never_recomputed (st : Store) (pid : Nat) (req : PostRequest)
    (gw : ImageFile → Option String) (p : Product)
    (hp : p ∈ st.products) (hpid : p.id = pid) (hcat : p.category = "dresses")
    (hslug : p.slug ≠ "")
    (hids : (st.products.map Product.id).Nodup) :
    (∀ pk name, assignSlug st.products pk name p.slug = p.slug) ∧
    ∀ q ∈ (edit_dress st pid req gw).store.products, q.id = pid → q.slug = p.slug := by
  refine ⟨fun pk name => assignSlug_nonempty st.products pk name p.slug hslug, ?_⟩
  have hsome : (st.products.find? fun r => r.id == pid && r.category == "dresses").isSome := by
    rw [List.find?_isSome]
    exact ⟨p, hp, by simp [hpid, hcat]⟩
  obtain ⟨r, hfind⟩ := Option.isSome_iff_exists.mp hsome
  have hrmem : r ∈ st.products := List.mem_of_find?_eq_some hfind
  have hrpred := List.find?_some hfind
  have hrid : r.id = pid := by
    simp only [Bool.and_eq_true, beq_iff_eq] at hrpred
    exact hrpred.1
  have hrp : r = p := row_eq_of_id_eq hids hrmem hp (hrid.trans hpid.symm)
  subst hrp
  simp only [edit_dress, hfind]
  by_cases herr : (fieldErrors req).isEmpty
  · rw [if_pos herr]
    intro q hq hqid
    cases himg : req.image with
    | none =>
      simp only [himg] at hq
      exact productSave_update_slug st
        { instanceOfRow r with
          name := pyStrip req.name, dress_type := pyStrip req.dress_type,
          description := pyStrip req.description, price := (pyFloat (pyStrip req.price)).getD 0,
          is_available := req.is_available == some "on" } r.id rfl hslug q
        hq (hqid.trans hrid.symm)
    | some img =>
      cases hgw : gw img with
      | none =>
        simp only [himg, hgw] at hq
        exact productSave_update_slug st
          { instanceOfRow r with
            name := pyStrip req.name, dress_type := pyStrip req.dress_type,
            description := pyStrip req.description, price := (pyFloat (pyStrip req.price)).getD 0,
            is_available := req.is_available == some "on" } r.id rfl hslug q
          hq (hqid.trans hrid.symm)
      | some url =>
        simp only [himg, hgw] at hq
        exact productSave_update_slug st
          { instanceOfRow r with
            name := pyStrip req.name, dress_type := pyStrip req.dress_type,
            description := pyStrip req.description, price := (pyFloat (pyStrip req.price)).getD 0,
            is_available := req.is_available == some "on", image_url := url } r.id rfl hslug q
          hq (hqid.trans hrid.symm)
  · rw [if_neg herr]
    intro q hq hqid
    have : q = r := row_eq_of_id_eq hids hq hrmem (hqid.trans hrid.symm)
    rw [this]

/-- A boolean predicate splits the length of a list into the matching and
the non-matching rows. -/
theorem length_filter_partition (l : List Product) (p : Product → Bool) :
    (l.filter p).length + (l.filter fun x => !p x).length = l.length := by
  induction l with
  | nil => rfl
  | cons hd tl ih =>
    by_cases h : p hd
    · simp [List.filter_cons, h]
      omega
    · simp [List.filter_cons, h]
      omega

/-- C3: the three managed-listing counts do not depend on the availability
filter or the search string (they are computed from the full dress
collection), and the available and hidden counts always add up to the total
count. -/
theorem claim_C3_manage_counts (cat : List Product) (f s f' s' : String) :
    (manage_dresses cat f s).available_count + (manage_dresses cat f s).hidden_count =
      (manage_dresses cat f s).all_count ∧
    (manage_dresses cat f s).all_count = (manage_dresses cat f' s').all_count ∧
    (manage_dresses cat f s).available_count = (manage_dresses cat f' s').available_count ∧
    (manage_dresses cat f s).hidden_count = (manage_dresses cat f' s').hidden_count := by
  refine ⟨?_, rfl, rfl, rfl⟩
  show ((cat.filter fun p => p.category == "dresses").filter fun p => p.is_available).length +
      ((cat.filter fun p => p.category == "dresses").filter fun p => !p.is_available).length =
      (cat.filter fun p => p.category == "dresses").length
  exact length_filter_partition _ _

/-- C4: the home feed holds only available products, newest first, and at
most 8 of them. -/
theorem claim_C4_home_feed (cat : List Product) :
    (∀ p ∈ home cat, p.is_available = true) ∧
    (home cat).length ≤ 8 ∧
    (home cat).Sorted createdDesc := by
  refine ⟨?_, ?_, ?_⟩
  · intro p hp
    have hmem : p ∈ orderByCreatedDesc (cat.filter fun q => q.is_available) :=
      List.take_subset _ _ hp
    rw [orderByCreatedDesc, List.mem_insertionSort] at hmem
    exact (List.mem_filter.mp hmem).2
  · exact List.length_take_le 8 _
  · exact List.Pairwise.sublist (List.take_sublist _ _)
      (List.sorted_insertionSort createdDesc _)

/-- C5: the related products of `p` share the category of `p`, are
available, never include `p` itself (its id is excluded), come newest first,
and number at most 4. -/
theorem claim_C5_related_products (cat : List Product) (p : Product) :
    (∀ q ∈ related_products cat p,
      q.category = p.category ∧ q.is_available = true ∧ q.id ≠ p.id) ∧
    p ∉ related_products cat p ∧
    (related_products cat p).length ≤ 4 ∧
    (related_products cat p).Sorted createdDesc := by
  have hmem : ∀ q ∈ related_products cat p,
      q.category = p.category ∧ q.is_available = true ∧ q.id ≠ p.id := by
    intro q hq
    have h1 : q ∈ orderByCreatedDesc
        (((cat.filter fun r => r.category == p.category && r.is_available)).filter
          fun r => !(r.id == p.id)) :=
      List.take_subset _ _ hq
    rw [orderByCreatedDesc, List.mem_insertionSort, List.mem_filter] at h1
    obtain ⟨h2, h3⟩ := h1
    rw [List.mem_filter] at h2
    obtain ⟨-, h4⟩ := h2
    simp only [Bool.and_eq_true, beq_iff_eq] at h4
    refine ⟨h4.1, h4.2, ?_⟩
    simpa using h3
  refine ⟨hmem, ?_, ?_, ?_⟩
  · intro hp
    exact ((hmem p hp).2.2) rfl
  · exact List.length_take_le 4 _
  · exact List.Pairwise.sublist (List.take_sublist _ _)
      (List.sorted_insertionSort createdDesc _)

/-- C6: a create submission whose price does not parse as a number (the
empty field included) or parses to a negative value is rejected with a
price-specific message in the error list; the catalog is unchanged and the
request does not redirect. -/
theorem claim_C6_price_validation (st : Store) (req : PostRequest)
    (gw : ImageFile → Option String)
    (h : pyFloat (pyStrip req.price) = none ∨ ∃ v, pyFloat (pyStrip req.price) = some v ∧ v < 0) :
    (upload_dress st req gw).store = st ∧
    (upload_dress st req gw).redirected = false ∧
    ∃ e ∈ (upload_dress st req gw).errors,
      e = "Price is required." ∨ e = "Invalid price format." ∨
        e = "Price must be a positive number." := by
  have hpe : ∃ e, (e ∈ if pyStrip req.price == "" then ["Price is required."]
      else match pyFloat (pyStrip req.price) with
        | none => ["Invalid price format."]
        | some v => if v < 0 then ["Price must be a positive number."] else []) ∧
      (e = "Price is required." ∨ e = "Invalid price format." ∨
        e = "Price must be a positive number.") := by
    by_cases hemp : pyStrip req.price == ""
    · exact ⟨"Price is required.", by rw [if_pos hemp]; exact List.mem_singleton.mpr rfl,
        Or.inl rfl⟩
    · rw [if_neg hemp]
      rcases h with hnone | ⟨v, hv, hvneg⟩
      · exact ⟨"Invalid price format.", by rw [hnone]; exact List.mem_singleton.mpr rfl,
          Or.inr (Or.inl rfl)⟩
      · refine ⟨"Price must be a positive number.", ?_, Or.inr (Or.inr rfl)⟩
        rw [hv]
        show _ ∈ if v < 0 then _ else _
        rw [if_pos hvneg]
        exact List.mem_singleton.mpr rfl
  obtain ⟨e, hin, hspec⟩ := hpe
  have hfield : e ∈ fieldErrors req := by
    rw [fieldErrors]
    simp only [List.mem_append]
    exact Or.inl (Or.inl (Or.inr hin))
  have hupl : e ∈ uploadErrors req := by
    rw [uploadErrors]
    exact List.mem_append.mpr (Or.inl hfield)
  have hne : (uploadErrors req).isEmpty = false := by
    cases herrs : uploadErrors req with
    | nil => rw [herrs] at hupl; cases hupl
    | cons a l => rfl
  have hred : upload_dress st req gw =
      { store := st, errors := uploadErrors req, redirected := false } := by
    rw [upload_dress, if_neg (by rw [hne]; exact Bool.false_ne_true)]
  rw [hred]
  exact ⟨rfl, rfl, e, hupl, hspec⟩

/-- Witness for C6: the spec scenario `price = "-5"`. -/
theorem claim_C6_price_validation_witness :
    (upload_dress ⟨[], 1, 0⟩ ⟨"A", "-5", "d", "maxi", none, some [0]⟩
        (fun _ => some "u")).store = ⟨[], 1, 0⟩ ∧
    (upload_dress ⟨[], 1, 0⟩ ⟨"A", "-5", "d", "maxi", none, some [0]⟩
        (fun _ => some "u")).redirected = false ∧
    ∃ e ∈ (upload_dress ⟨[], 1, 0⟩ ⟨"A", "-5", "d", "maxi", none, some [0]⟩
        (fun _ => some "u")).errors,
      e = "Price is required." ∨ e = "Invalid price format." ∨
        e = "Price must be a positive number." :=
  claim_C6_price_validation ⟨[], 1, 0⟩ ⟨"A", "-5", "d", "maxi", none, some [0]⟩
    (fun _ => some "u")
    (Or.inr ⟨-5, of_decide_eq_true (by with_unfolding_all rfl),
      of_decide_eq_true (by with_unfolding_all rfl)⟩)

/-- Witness for C2: a one-row catalog, an edit that changes the name. -/
theorem claim_C2_slug_never_recomputed_witness :
    (∀ pk name,
      assignSlug [⟨1, "Gown", "gown", "dresses", "", "d", 10, "", true, 0⟩] pk name "gown" =
        "gown") ∧
    ∀ q ∈ (edit_dress ⟨[⟨1, "Gown", "gown", "dresses", "", "d", 10, "", true, 0⟩], 2, 1⟩ 1
        ⟨"New Name", "5", "d", "maxi", none, none⟩ (fun _ => none)).store.products,
      q.id = 1 → q.slug = "gown" :=
  claim_C2_slug_never_recomputed ⟨[⟨1, "Gown", "gown", "dresses", "", "d", 10, "", true, 0⟩], 2, 1⟩
    1 ⟨"New Name", "5", "d", "maxi", none, none⟩ (fun _ => none)
    ⟨1, "Gown", "gown", "dresses", "", "d", 10, "", true, 0⟩
    (by decide) rfl rfl (by decide) (by decide)

/-- C7: a create submission without an image file is rejected (the catalog
is unchanged and the image error is reported), while an otherwise valid edit
submission without an image succeeds and leaves the stored `image_url`
untouched. -/
theorem claim_C7_image_create_required_edit_optional
    (st : Store) (reqC reqE : PostRequest) (gw : ImageFile → Option String)
    (pid : Nat) (p : Product)
    (hC : reqC.image = none)
    (hp : p ∈ st.products) (hpid : p.id = pid) (hcat : p.category = "dresses")
    (hids : (st.products.map Product.id).Nodup)
    (hE : reqE.image = none) (hvalid : fieldErrors reqE = []) :
    ((upload_dress st reqC gw).store = st ∧
      "Please upload an image." ∈ (upload_dress st reqC gw).errors ∧
      (upload_dress st reqC gw).redirected = false) ∧
    ((edit_dress st pid reqE gw).outcome = EditOutcome.rendered [] true ∧
      ∀ q ∈ (edit_dress st pid reqE gw).store.products, q.id = pid →
        q.image_url = p.image_url) := by
  constructor
  · have himgmem : "Please upload an image." ∈ uploadErrors reqC := by
      rw [uploadErrors, hC]
      exact List.mem_append.mpr (Or.inr (List.mem_singleton.mpr rfl))
    have hne : (uploadErrors reqC).isEmpty = false := isEmpty_eq_false_of_mem himgmem
    have hres : upload_dress st reqC gw =
        { store := st, errors := uploadErrors reqC, redirected := false } := by
      rw [upload_dress, if_neg (by rw [hne]; exact Bool.false_ne_true)]
    rw [hres]
    exact ⟨rfl, himgmem, rfl⟩
  · have hsome : (st.products.find? fun r => r.id == pid && r.category == "dresses").isSome := by
      rw [List.find?_isSome]
      exact ⟨p, hp, by simp [hpid, hcat]⟩
    obtain ⟨r, hfind⟩ := Option.isSome_iff_exists.mp hsome
    have hrmem : r ∈ st.products := List.mem_of_find?_eq_some hfind
    have hrpred := List.find?_some hfind
    have hrid : r.id = pid := by
      simp only [Bool.and_eq_true, beq_iff_eq] at hrpred
      exact hrpred.1
    have hrp : r = p := row_eq_of_id_eq hids hrmem hp (hrid.trans hpid.symm)
    subst hrp
    have herr : (fieldErrors reqE).isEmpty = true := by rw [hvalid]; rfl
    simp only [edit_dress, hfind, hE]
    rw [if_pos herr]
    refine ⟨rfl, ?_⟩
    intro q hq hqid
    have := productSave_update_row st
      { instanceOfRow r with
        name := pyStrip reqE.name, dress_type := pyStrip reqE.dress_type,
        description := pyStrip reqE.description, price := (pyFloat (pyStrip reqE.price)).getD 0,
        is_available := reqE.is_available == some "on" } r.id rfl q hq
      (hqid.trans hrid.symm)
    rw [this]
    rfl

/-- Witness for C7: a one-row catalog, a create request and a valid edit
request, both without an image. -/
theorem claim_C7_image_create_required_edit_optional_witness :
    ((upload_dress ⟨[⟨1, "Gown", "gown", "dresses", "", "d", 10, "img0", true, 0⟩], 2, 1⟩
        ⟨"A", "1", "d", "maxi", none, none⟩ (fun _ => some "u")).store =
      ⟨[⟨1, "Gown", "gown", "dresses", "", "d", 10, "img0", true, 0⟩], 2, 1⟩ ∧
      "Please upload an image." ∈ (upload_dress
        ⟨[⟨1, "Gown", "gown", "dresses", "", "d", 10, "img0", true, 0⟩], 2, 1⟩
        ⟨"A", "1", "d", "maxi", none, none⟩ (fun _ => some "u")).errors ∧
      (upload_dress ⟨[⟨1, "Gown", "gown", "dresses", "", "d", 10, "img0", true, 0⟩], 2, 1⟩
        ⟨"A", "1", "d", "maxi", none, none⟩ (fun _ => some "u")).redirected = false) ∧
    ((edit_dress ⟨[⟨1, "Gown", "gown", "dresses", "", "d", 10, "img0", true, 0⟩], 2, 1⟩ 1
        ⟨"B", "2", "e", "midi", none, none⟩ (fun _ => some "u")).outcome =
      EditOutcome.rendered [] true ∧
      ∀ q ∈ (edit_dress ⟨[⟨1, "Gown", "gown", "dresses", "", "d", 10, "img0", true, 0⟩], 2, 1⟩ 1
          ⟨"B", "2", "e", "midi", none, none⟩ (fun _ => some "u")).store.products,
        q.id = 1 → q.image_url = "img0") :=
  claim_C7_image_create_required_edit_optional
    ⟨[⟨1, "Gown", "gown", "dresses", "", "d", 10, "img0", true, 0⟩], 2, 1⟩
    ⟨"A", "1", "d", "maxi", none, none⟩ ⟨"B", "2", "e", "midi", none, none⟩
    (fun _ => some "u") 1 ⟨1, "Gown", "gown", "dresses", "", "d", 10, "img0", true, 0⟩
    rfl (by decide) rfl rfl (by decide) rfl
    (of_decide_eq_true (by with_unfolding_all rfl))

/-- C9: for an id no product carries, a POST to `toggle_dress` or to
`delete_dress` surfaces the not-found outcome (`Http404`) and leaves the
catalog untouched — never a silent success. -/
theorem claim_C9_missing_id_not_found (st : Store) (pid : Nat)
    (h : ∀ p ∈ st.products, p.id ≠ pid) :
    toggle_dress st true pid = (st, SimpleOutcome.notFound) ∧
    delete_dress st true pid = (st, SimpleOutcome.notFound) := by
  have hfind : st.products.find? (fun p => p.id == pid) = none := by
    rw [List.find?_eq_none]
    intro p hp
    simpa using h p hp
  constructor
  · rw [toggle_dress, if_pos rfl, hfind]
  · rw [delete_dress, if_pos rfl, hfind]

/-- Witness for C9: a one-row catalog and the absent id 5. -/
theorem claim_C9_missing_id_not_found_witness :
    toggle_dress ⟨[⟨1, "Gown", "gown", "dresses", "", "d", 10, "", true, 0⟩], 2, 1⟩ true 5 =
      (⟨[⟨1, "Gown", "gown", "dresses", "", "d", 10, "", true, 0⟩], 2, 1⟩,
        SimpleOutcome.notFound) ∧
    delete_dress ⟨[⟨1, "Gown", "gown", "dresses", "", "d", 10, "", true, 0⟩], 2, 1⟩ true 5 =
      (⟨[⟨1, "Gown", "gown", "dresses", "", "d", 10, "", true, 0⟩], 2, 1⟩,
        SimpleOutcome.notFound) :=
  claim_C9_missing_id_not_found
    ⟨[⟨1, "Gown", "gown", "dresses", "", "d", 10, "", true, 0⟩], 2, 1⟩ 5 (by decide)

/-- C10: on an otherwise valid edit whose new image fails to upload (the
gateway returns no URL), the edit still succeeds with no error reported:
every other submitted field is persisted and the prior `image_url` is
kept. -/
theorem claim_C10_edit_gateway_failure (st : Store) (pid : Nat) (req : PostRequest)
    (gw : ImageFile → Option String) (p : Product) (img : ImageFile)
    (hp : p ∈ st.products) (hpid : p.id = pid) (hcat : p.category = "dresses")
    (hids : (st.products.map Product.id).Nodup)
    (hvalid : fieldErrors req = []) (himg : req.image = some img) (hgw : gw img = none) :
    (edit_dress st pid req gw).outcome = EditOutcome.rendered [] true ∧
    ∀ q ∈ (edit_dress st pid req gw).store.products, q.id = pid →
      q.image_url = p.image_url ∧ q.name = pyStrip req.name ∧
      q.description = pyStrip req.description ∧ q.dress_type = pyStrip req.dress_type ∧
      q.price = (pyFloat (pyStrip req.price)).getD 0 ∧
      q.is_available = (req.is_available == some "on") := by
  have hsome : (st.products.find? fun r => r.id == pid && r.category == "dresses").isSome := by
    rw [List.find?_isSome]
    exact ⟨p, hp, by simp [hpid, hcat]⟩
  obtain ⟨r, hfind⟩ := Option.isSome_iff_exists.mp hsome
  have hrmem : r ∈ st.products := List.mem_of_find?_eq_some hfind
  have hrpred := List.find?_some hfind
  have hrid : r.id = pid := by
    simp only [Bool.and_eq_true, beq_iff_eq] at hrpred
    exact hrpred.1
  have hrp : r = p := row_eq_of_id_eq hids hrmem hp (hrid.trans hpid.symm)
  subst hrp
  have herr : (fieldErrors req).isEmpty = true := by rw [hvalid]; rfl
  simp only [edit_dress, hfind, himg, hgw]
  rw [if_pos herr]
  refine ⟨rfl, ?_⟩
  intro q hq hqid
  have := productSave_update_row st
    { instanceOfRow r with
      name := pyStrip req.name, dress_type := pyStrip req.dress_type,
      description := pyStrip req.description, price := (pyFloat (pyStrip req.price)).getD 0,
      is_available := req.is_available == some "on" } r.id rfl q hq
    (hqid.trans hrid.symm)
  rw [this]
  exact ⟨rfl, rfl, rfl, rfl, rfl, rfl⟩

/-- Witness for C10: a one-row catalog, a valid edit carrying an image, a
gateway that fails. -/
theorem claim_C10_edit_gateway_failure_witness :
    (edit_dress ⟨[⟨1, "Gown", "gown", "dresses", "", "d", 10, "img0", true, 0⟩], 2, 1⟩ 1
        ⟨"B", "2", "e", "midi", none, some [7]⟩ (fun _ => none)).outcome =
      EditOutcome.rendered [] true ∧
    ∀ q ∈ (edit_dress ⟨[⟨1, "Gown", "gown", "dresses", "", "d", 10, "img0", true, 0⟩], 2, 1⟩ 1
        ⟨"B", "2", "e", "midi", none, some [7]⟩ (fun _ => none)).store.products,
      q.id = 1 →
        q.image_url = "img0" ∧ q.name = pyStrip "B" ∧
        q.description = pyStrip "e" ∧ q.dress_type = pyStrip "midi" ∧
        q.price = (pyFloat (pyStrip "2")).getD 0 ∧
        q.is_available = ((none : Option String) == some "on") :=
  claim_C10_edit_gateway_failure
    ⟨[⟨1, "Gown", "gown", "dresses", "", "d", 10, "img0", true, 0⟩], 2, 1⟩ 1
    ⟨"B", "2", "e", "midi", none, some [7]⟩ (fun _ => none)
    ⟨1, "Gown", "gown", "dresses", "", "d", 10, "img0", true, 0⟩ [7]
    (by decide) rfl rfl (by decide)
    (of_decide_eq_true (by with_unfolding_all rfl)) rfl rfl

/-- The create submission of the spec scenario for C8: name "Red Gown",
price "120.00", description "x", dress type "evening_gown", an image, and —
as written in the scenario — no `is_available` field. -/
def redGownReq : PostRequest :=
  ⟨"Red Gown", "120.00", "x", "evening_gown", none, some [0]⟩

/-- The gateway of the C8 scenario: the upload returns
"https://host/r.jpg". -/
def redGownGateway : ImageFile → Option String :=
  fun _ => some "https://host/r.jpg"

/-- C8 fails on the code: `upload_dress` sets `is_available` from the
checkbox (`request.POST.get('is_available') == 'on'`), so the scenario
submission — which carries no `is_available` field — persists the record
with `is_available = false`, not the model-field default `true`.  Slug and
image URL come out as the claim says. -/
theorem claim_C8_counterexample :
    ((upload_dress ⟨[], 1, 0⟩ redGownReq redGownGateway).store.products.map
        fun p => (p.slug, p.image_url, p.is_available)) =
      [("red-gown", "https://host/r.jpg", false)] :=
  of_decide_eq_true (by with_unfolding_all rfl)

/-- C8 as amended: the scenario record gets slug "red-gown", the gateway
URL as `image_url`, price 120 — and `is_available = false`, because the
view computes it from the absent checkbox, overriding the model default;
the second identical submission gets slug "red-gown-1". -/
theorem claim_C8_red_gown_scenario :
    ((upload_dress ⟨[], 1, 0⟩ redGownReq redGownGateway).store.products.map
        fun p => (p.slug, p.image_url, p.is_available, p.price)) =
      [("red-gown", "https://host/r.jpg", false, (120 : Rat))] ∧
    ((upload_dress (upload_dress ⟨[], 1, 0⟩ redGownReq redGownGateway).store
        redGownReq redGownGateway).store.products.map Product.slug) =
      ["red-gown", "red-gown-1"] :=
  of_decide_eq_true (by with_unfolding_all rfl)

end Fashion
